import Mathlib

/-!
Verification of the a11y-pdf-audit core pipeline against its specification.

The Python sources are shallowly embedded: pure string manipulation is
translated directly; subprocess and network effects are abstracted as
oracle functions passed in as parameters (an oracle maps an invocation
site, e.g. attempt index and timeout value, to the outcome the external
world produced); file-system side effects are recorded as explicit fields
of the returned state.
-/

namespace A11y

/-!
String operations. The Python string methods are implemented here
directly over the character list of a `String` with plain structural
recursion (the corresponding functions of the Lean core library are
defined through `Substring` positions and well-founded recursion, which
the kernel cannot evaluate, so they would make concrete instances
unprovable by `decide`). Each definition states which Python operation it
implements.
-/

/-- Does `pat` occur as a contiguous sublist of the haystack? Helper for
Python's `pat in s`. -/
def hasSubList (pat : List Char) : List Char → Bool
  | [] => pat.isEmpty
  | c :: rest => pat.isPrefixOf (c :: rest) || hasSubList pat rest

/-- Python `pat in s` substring containment. -/
def pyContains (s pat : String) : Bool :=
  hasSubList pat.data s.data

/-- If the haystack starts with `pat`, return the rest of the haystack. -/
def dropPat : List Char → List Char → Option (List Char)
  | [], hay => some hay
  | _ :: _, [] => none
  | p :: ps, c :: cs => if p == c then dropPat ps cs else none

/-- Replacement loop for Python `s.replace(old, new)`: at each position,
either consume a match of `old` and emit `new`, or keep one character.
`fuel` (the haystack length at the call site) bounds the recursion. -/
def replaceLoop (pat rep : List Char) : List Char → Nat → List Char
  | hay, 0 => hay
  | hay, fuel + 1 =>
    match hay with
    | [] => []
    | c :: rest =>
      match dropPat pat hay with
      | some remainder => rep ++ replaceLoop pat rep remainder fuel
      | none => c :: replaceLoop pat rep rest fuel

/-- Python `s.replace(old, new)` for the non-empty `old` patterns used by
the audit code (replaces every occurrence, scanning left to right). -/
def pyReplace (s old new : String) : String :=
  String.mk (replaceLoop old.data new.data s.data s.data.length)

/-- Python `str.strip()` with no argument: drop leading and trailing
whitespace. -/
def pyStrip (s : String) : String :=
  String.mk
    (((s.data.dropWhile Char.isWhitespace).reverse.dropWhile Char.isWhitespace).reverse)

/-- Word accumulator for Python `str.split()` with no argument. -/
def splitWsGo : List Char → List Char → List String
  | [], acc => if acc.isEmpty then [] else [String.mk acc.reverse]
  | c :: rest, acc =>
      if c.isWhitespace then
        if acc.isEmpty then splitWsGo rest [] else String.mk acc.reverse :: splitWsGo rest []
      else splitWsGo rest (c :: acc)

/-- Python `str.split()` with no argument: split on whitespace runs,
dropping empty parts. -/
def pySplitWs (s : String) : List String :=
  splitWsGo s.data []

/-- Python `" ".join(words)`. -/
def joinSpace : List String → String
  | [] => ""
  | [w] => w
  | w :: ws => w ++ " " ++ joinSpace ws

/-- Python `s.startswith(pat)`. -/
def pyStartsWith (s pat : String) : Bool :=
  pat.data.isPrefixOf s.data

/-- Python `s.endswith(pat)`. -/
def pyEndsWith (s pat : String) : Bool :=
  pat.data.isSuffixOf s.data

/-- Python `s.lower()` (ASCII range, which covers the URLs and extensions
compared by the crawler). -/
def pyLower (s : String) : String :=
  String.mk (s.data.map Char.toLower)

/-- Python `output.split("\n")[0]`: the text up to the first newline. -/
def firstLineOf (s : String) : String :=
  String.mk (s.data.takeWhile (fun c => c != '\n'))

/-- Embeds `_parse_verapdf_output` (src/core/services/pdf_processor.py,
lines 92-107): classify the first output line as PASS/FAIL/ERROR, clean
the message, extract the trailing profile word. Returns
(status, clean_msg, profile). -/
def parseVerapdfOutput (output localPath : String) : String × String × String :=
  let firstLine := if output = "" then "ERROR: No output" else firstLineOf output
  let clean0 := pyStrip (pyReplace firstLine localPath "")
  let parts := pySplitWs clean0
  let cleanMsg := joinSpace parts
  let profile := if parts.length > 1 then parts.getLastD "?" else "?"
  if pyContains firstLine "PASS" then ("PASS", cleanMsg, profile)
  else if pyContains firstLine "FAIL" then ("FAIL", cleanMsg, profile)
  else ("ERROR", "VeraPDF Error: " ++ cleanMsg, profile)

/-- Outcome of one `subprocess.run` invocation of the veraPDF CLI:
normal completion with combined output text, `TimeoutExpired`, or an
`OSError`/`SubprocessError` with a message. -/
inductive RunOutcome where
  | output (s : String)
  | timeout
  | oserror (msg : String)
deriving DecidableEq, Repr

/-- Result quadruple of `_run_verapdf`: (status, details, profile,
timeout actually in force on the last attempt). -/
structure VpResult where
  status : String
  details : String
  profile : String
  timeoutUsed : Nat
deriving DecidableEq, Repr

/-- The non-retry outcomes of one iteration of the `_run_verapdf` attempt
loop (pdf_processor.py, lines 137-147 and 166-167): a completed process
is parsed and returned with the timeout in force; an
`OSError`/`SubprocessError` returns ERROR with its message; a
`TimeoutExpired` (`none`) is left to the loop's retry logic. -/
def runAttemptResult (localPath : String) (out : RunOutcome) (tmo : Nat) :
    Option VpResult :=
  match out with
  | RunOutcome.output s =>
      let p := parseVerapdfOutput s localPath
      some ⟨p.1, p.2.1, p.2.2, tmo⟩
  | RunOutcome.oserror e => some ⟨"ERROR", e, "?", tmo⟩
  | RunOutcome.timeout => none

/-- Embeds the attempt loop of `_run_verapdf` (pdf_processor.py, lines
136-167). `exec attempt tmo` is the oracle giving the subprocess outcome
of the given attempt run under timeout `tmo`. `remaining` counts the
attempts still allowed after the current one (`retries - attempt` in the
Python loop), so on `TimeoutExpired` the loop retries with the escalated
timeout exactly when `attempt < retries`, and otherwise returns ERROR
with the "Timeout exceeded" detail. -/
def runVerapdfGo (exec : Nat → Nat → RunOutcome) (localPath : String) (tFactor : Nat) :
    Nat → Nat → Nat → VpResult
  | 0, attempt, tmo =>
      match runAttemptResult localPath (exec attempt tmo) tmo with
      | some v => v
      | none => ⟨"ERROR", "VeraPDF Timeout exceeded (" ++ toString tmo ++ "s)", "?", tmo⟩
  | r + 1, attempt, tmo =>
      match runAttemptResult localPath (exec attempt tmo) tmo with
      | some v => v
      | none => runVerapdfGo exec localPath tFactor r (attempt + 1) (tmo * tFactor)

/-- Python `forced_timeout or cfg[...]`: a `None` or zero forced timeout
falls back to the configured base (0 is falsy in Python). -/
def pyOrTimeout (forced : Option Nat) (base : Nat) : Nat :=
  match forced with
  | none => base
  | some t => if t = 0 then base else t

/-- Embeds `_run_verapdf` (pdf_processor.py, lines 110-167): start at the
forced timeout if given (and truthy) else the configured base, run up to
`retries + 1` attempts, multiplying the timeout by `tFactor` after each
`TimeoutExpired`. -/
def runVerapdf (exec : Nat → Nat → RunOutcome) (localPath : String)
    (forced : Option Nat) (base retries tFactor : Nat) : VpResult :=
  runVerapdfGo exec localPath tFactor retries 0 (pyOrTimeout forced base)

/-- One ValidationRecord as built by `_process_single_pdf` (the Python
dict). Keys the code never writes (`repaired`, `repaired_path`,
`status_after` — read elsewhere via `.get`, which yields a falsy default
when absent) are modelled as fields whose default value encodes absence. -/
structure Entry where
  url : String
  filename : String
  status : String
  details : String
  profile : String
  author : String
  date : String
  statusStrict : Option String
  detailsStrict : Option String
  repaired : Bool
  repairedPath : Option String
  statusAfter : Option String
deriving DecidableEq, Repr

/-- Outcome of `_download_file` for one URL: success, or the exception
message finally re-raised after three attempts. -/
inductive DownloadResult where
  | ok
  | failed (msg : String)
deriving DecidableEq, Repr

/-- External-world outcomes for processing one URL: the download result,
the metadata `_get_pdf_metadata` extracted, and the subprocess oracles for
the strict and the screen-reader (lenient) veraPDF runs. -/
structure PdfOracle where
  fname : String
  dl : DownloadResult
  author : String
  date : String
  strictExec : Nat → Nat → RunOutcome
  srExec : Nat → Nat → RunOutcome

/-- Embeds `_process_single_pdf` (pdf_processor.py, lines 203-257): build
the initial record, download, read metadata, run the strict check, then
either skip the screen-reader check (strict ERROR with "Timeout" in the
details) or run it starting from the timeout the strict run converged to.
A download failure lands in the `except` branch producing an ERROR record. -/
def processSinglePdf (url : String) (o : PdfOracle)
    (localPath : String) (base retries tFactor : Nat) : Entry :=
  let e0 : Entry :=
    { url := url, filename := o.fname, status := "UNKNOWN", details := ""
      profile := "", author := "Unknown", date := "Unknown"
      statusStrict := none, detailsStrict := none
      repaired := false, repairedPath := none, statusAfter := none }
  match o.dl with
  | DownloadResult.failed msg =>
      { e0 with status := "ERROR", details := "Download/System Fehler: " ++ msg }
  | DownloadResult.ok =>
      let e1 := { e0 with author := o.author, date := o.date }
      let strict := runVerapdf o.strictExec localPath none base retries tFactor
      let sr :=
        if strict.status = "ERROR" ∧ pyContains strict.details "Timeout" then
          ("ERROR", "VeraPDF Timeout (Skipped SR Check)")
        else
          let r := runVerapdf o.srExec localPath (some strict.timeoutUsed) base retries tFactor
          (r.status, r.details)
      { e1 with status := sr.1, details := sr.2
                statusStrict := some strict.status
                detailsStrict := some strict.details
                profile := "ScreenReadable" }

/-- Severity key of the final sort (pdf_processor.py, line 279):
`{"PASS": 0, "FAIL": 1}.get(status, 2)`. -/
def sevKey (status : String) : Nat :=
  if status = "PASS" then 0 else if status = "FAIL" then 1 else 2

/-- Stable insertion into a severity-sorted list: the inserted element
precedes all elements of the input list in discovery order (`sortBySev`
peels the list from the front), so it goes before the first element of
equal or larger key. Together with `sortBySev` this realizes Python's
stable `list.sort` with the severity key. -/
def insertBySev (e : Entry) : List Entry → List Entry
  | [] => [e]
  | x :: xs =>
      if sevKey e.status ≤ sevKey x.status then e :: x :: xs
      else x :: insertBySev e xs

/-- Stable sort by severity key, processing records in discovery order. -/
def sortBySev : List Entry → List Entry
  | [] => []
  | x :: xs => insertBySev x (sortBySev xs)

/-- The line filter of `process_pdf_links` (pdf_processor.py, lines
268-269): keep lines that are non-blank after stripping and do not start
with `#`, stripped. -/
def parseLinkLines (lines : List String) : List String :=
  (lines.filter (fun l => pyStrip l != "" && !(pyStartsWith l "#"))).map pyStrip

/-- Observable outcome of `process_pdf_links`: the returned (and
persisted) result list, whether the result-set JSON artifact was written,
and whether the scratch directory was created. -/
structure ProcessOutcome where
  results : List Entry
  wroteJson : Bool
  madeTempDir : Bool
deriving Repr

/-- Embeds `process_pdf_links` (pdf_processor.py, lines 260-287):
`os.makedirs(temp_dir)` always runs; a missing link-list file returns `[]`
without writing the JSON artifact; otherwise each URL is processed in
discovery order, the records are sorted by severity, persisted and
returned. `oracle i u` gives the external outcomes for the `i`-th URL
(1-based, as in the Python `enumerate(urls, 1)`). `rawResults` is the
result list in discovery order, before the severity sort. -/
def rawResults (lines : List String) (oracle : Nat → String → PdfOracle)
    (tempDir : String) (base retries tFactor : Nat) : List Entry :=
  let urls := parseLinkLines lines
  ((List.range urls.length).zip urls).map
    (fun p => processSinglePdf p.2 (oracle (p.1 + 1) p.2)
      (tempDir ++ "/" ++ (oracle (p.1 + 1) p.2).fname) base retries tFactor)

/-- See `rawResults`: the outcome of `process_pdf_links` proper. -/
def processPdfLinks (linkFileExists : Bool) (lines : List String)
    (oracle : Nat → String → PdfOracle) (tempDir : String)
    (base retries tFactor : Nat) : ProcessOutcome :=
  if !linkFileExists then
    { results := [], wroteJson := false, madeTempDir := true }
  else
    { results := sortBySev (rawResults lines oracle tempDir base retries tFactor),
      wroteJson := true, madeTempDir := true }

/-- The facade's repaired-file collection (facade.py, line 76):
`[r["repaired_path"] for r in results if r.get("repaired")]`. -/
def repairedFiles (rs : List Entry) : List (Option String) :=
  (rs.filter (fun r => r.repaired)).map (fun r => r.repairedPath)

/-! ## Repair Orchestrator (src/core/services/pdf_converter.py) -/

/-- The two repair strategies of the Repair Orchestrator. -/
inductive Strategy where
  | semantic
  | technical
deriving DecidableEq, Repr

/-- Embeds the branch of `run_improvement` (pdf_converter.py, lines
134-141). `ramGb` is the value `psutil.virtual_memory().total / (1024**3)`
as an exact rational. The source chooses the semantic (AI) path iff
`force_ai and ram_gb >= 4`. -/
def runImprovementChoice (forceAI : Bool) (ramGb : ℚ) : Strategy :=
  if forceAI = true ∧ 4 ≤ ramGb then Strategy.semantic else Strategy.technical

/-- The selection rule C2 claims — request AND memory threshold AND not a
constrained/ephemeral host — written from the spec's words for comparison
with `runImprovementChoice`, which the source actually defines. -/
def claimedSelection (forceAI : Bool) (ramGb : ℚ) (constrainedHost : Bool) : Strategy :=
  if forceAI = true ∧ 4 ≤ ramGb ∧ constrainedHost = false then Strategy.semantic
  else Strategy.technical

/-! ## Crawler (src/core/services/pdf_crawler.py) -/

/-- `full_url.lower().endswith(".pdf")` (pdf_crawler.py, line 91). -/
def endsWithPdf (u : String) : Bool :=
  pyEndsWith (pyLower u) ".pdf"

/-- The media-extension test of `_process_links` (pdf_crawler.py, lines
101-103). -/
def isMediaUrl (u : String) : Bool :=
  [".jpg", ".png", ".zip", ".mp4"].any (fun x => pyEndsWith (pyLower u) x)

/-- Crawler state (class `CrawlContext` plus the loop counter): the BFS
frontier, the visited set, the discovered-document set `all_pdfs` (a list
used as a set: membership-guarded insertion), the durable link-list sink
(the sequence of strings written to the output file handle), and the
pages-scanned counter. -/
structure CrawlState where
  queue : List (String × Nat)
  visited : List String
  allPdfs : List String
  sink : List String
  pagesScanned : Nat
deriving Repr

/-- The "record if new" operation (pdf_crawler.py, lines 92-97): if the
document URL is not yet in `all_pdfs`, add it and append-and-flush it to
the durable sink; otherwise do nothing. -/
def recordIfNew (st : CrawlState) (url : String) : CrawlState :=
  if url ∈ st.allPdfs then st
  else { st with allPdfs := st.allPdfs ++ [url], sink := st.sink ++ [url ++ "\n"] }

/-- Handling of one resolved link in `_process_links` (pdf_crawler.py,
lines 90-107): a document link is recorded if new; any other link is
enqueued at `depth + 1` when `depth < max_depth`, domain-scoped, unvisited
and not a media extension. `validDomain` abstracts `is_exact_domain`
(netloc comparison, a library-backed URL parse). -/
def processLink (validDomain : String → Bool) (maxDepth : Nat)
    (depth : Nat) (st : CrawlState) (url : String) : CrawlState :=
  if endsWithPdf url then
    recordIfNew st url
  else if depth < maxDepth then
    if validDomain url && !(st.visited.contains url) && !(isMediaUrl url) then
      { st with visited := st.visited ++ [url], queue := st.queue ++ [(url, depth + 1)] }
    else st
  else st

/-- `_process_links` over a whole page's extracted links, in order. -/
def processLinks (validDomain : String → Bool) (maxDepth : Nat)
    (links : List String) (depth : Nat) (st : CrawlState) : CrawlState :=
  links.foldl (fun s u => processLink validDomain maxDepth depth s u) st

/-- One iteration of the BFS loop of `crawl_site_logic` (pdf_crawler.py,
lines 136-166): pop the oldest frontier entry, fetch it, process its
links, and count the page as scanned. `fetchLinks url = some links`
models a successful HTML fetch with the resolved links `_extract_links`
produced; `none` models a non-HTML content type or a request failure
(both skip link processing). An empty frontier is a no-op (the Python
loop has already exited). -/
def bfsIter (fetchLinks : String → Option (List String))
    (validDomain : String → Bool) (maxDepth : Nat) (st : CrawlState) : CrawlState :=
  match st.queue with
  | [] => st
  | (url, depth) :: rest =>
    let st1 : CrawlState := { st with queue := rest }
    let st2 := match fetchLinks url with
      | none => st1
      | some links => processLinks validDomain maxDepth links depth st1
    { st2 with pagesScanned := st2.pagesScanned + 1 }

/-- The BFS loop: every iteration increments `pages_scanned`, so the loop
condition `pages_scanned < max_pages` bounds it to `max_pages` iterations
from a fresh state; `fuel` is that bound. Iterating past an emptied
frontier is the identity, matching the loop's other exit condition. -/
def bfsLoop (fetchLinks : String → Option (List String))
    (validDomain : String → Bool) (maxDepth : Nat) :
    Nat → CrawlState → CrawlState
  | 0, st => st
  | fuel + 1, st =>
      bfsLoop fetchLinks validDomain maxDepth fuel
        (bfsIter fetchLinks validDomain maxDepth st)

/-- Embeds `crawl_site_logic` (pdf_crawler.py, lines 110-172).
`sitemapPdfs` is the list `_fetch_sitemap` returned (the `<loc>` entries
ending in `.pdf`, deduplicated by the Python set). The sitemap hits are
added to `all_pdfs` (set update) and written to the sink after the header
line, then the BFS runs; the function returns the final state, whose
`allPdfs` is the returned discovered-document set. -/
def crawlSiteLogic (startUrl : String) (sitemapPdfs : List String)
    (fetchLinks : String → Option (List String)) (validDomain : String → Bool)
    (maxPages maxDepth : Nat) : CrawlState :=
  let st0 : CrawlState :=
    { queue := [(startUrl, 0)], visited := [startUrl], allPdfs := [],
      sink := [], pagesScanned := 0 }
  let withSitemap : CrawlState :=
    { st0 with
      allPdfs := sitemapPdfs.foldl
        (fun acc p => if p ∈ acc then acc else acc ++ [p]) st0.allPdfs
      sink := (st0.sink ++ ["# Crawl Results for " ++ startUrl ++ "\n\n"])
        ++ sitemapPdfs.map (fun p => p ++ "\n") }
  bfsLoop fetchLinks validDomain maxDepth maxPages withSitemap

/-! ## Job Runner heartbeat (src/core/controller.py) -/

/-- The target resolution at the top of `_keep_alive_worker`
(controller.py, lines 29-34): without `FLY_APP_NAME` (or with it empty,
which is falsy) the worker returns before the loop. -/
def keepAliveTarget (appName : Option String) : Option String :=
  match appName with
  | none => none
  | some s => if s = "" then none else some ("https://" ++ s ++ ".fly.dev/")

/-- The ping loop of `_keep_alive_worker` (controller.py, lines 38-45):
each iteration checks `stop_event.is_set()`, issues one GET to the target
(failures are swallowed but the request was still issued), then waits 20s
on the event. `isSet i` / `waitStop i` give the event state at the two
observation points of iteration `i`; `fuel` bounds the observed prefix of
the (stop-terminated) loop. Returns the trace of issued request URLs. -/
def keepAliveLoop (target : String) (isSet waitStop : Nat → Bool) :
    Nat → Nat → List String
  | 0, _ => []
  | fuel + 1, i =>
      if isSet i then []
      else target ::
        (if waitStop i then [] else keepAliveLoop target isSet waitStop fuel (i + 1))

/-- Embeds `_keep_alive_worker` (controller.py, lines 25-47): resolve the
target from the environment, return immediately when there is none,
otherwise run the ping loop. The result is the trace of outbound
heartbeat requests. -/
def keepAliveWorker (appName : Option String) (isSet waitStop : Nat → Bool)
    (fuel : Nat) : List String :=
  match keepAliveTarget appName with
  | none => []
  | some t => keepAliveLoop t isSet waitStop fuel 0

/-! ## Theorems -/

/-- Claim C9: if the host-identity environment variable (`FLY_APP_NAME`)
is not set, the heartbeat worker issues no outbound heartbeat request at
any point of any run: its request trace is empty for every stop-event
schedule and every observation bound. -/
theorem C9_no_heartbeat_without_host_identity
    (isSet waitStop : Nat → Bool) (fuel : Nat) :
    keepAliveWorker none isSet waitStop fuel = [] := rfl

/-- Claim C10: when the link-list file does not exist, `process_pdf_links`
returns the empty list and does not write the result-set JSON artifact,
but has already created the scratch directory. -/
theorem C10_missing_link_file (lines : List String)
    (oracle : Nat → String → PdfOracle) (tempDir : String)
    (base retries tFactor : Nat) :
    processPdfLinks false lines oracle tempDir base retries tFactor =
      { results := [], wroteJson := false, madeTempDir := true } := rfl

/-- Claim C2 (counterexample): the claimed selection rule requires the run
not to be on a constrained/ephemeral host, but `run_improvement` never
consults any host profile: with the AI mode requested and 8 GB of memory
on a constrained host, the source picks semantic reconstruction while the
claimed rule picks the technical fix. -/
theorem C2_counterexample :
    runImprovementChoice true 8 = Strategy.semantic ∧
    claimedSelection true 8 true = Strategy.technical := by
  constructor <;> decide

/-- Claim C2 (amended): the repair strategy selection is a pure function
of its inputs; semantic reconstruction is chosen iff the caller explicitly
requested it AND total memory is at least 4 GB, and in every other case
the technical fix is chosen — the constrained/ephemeral-host profile is
not consulted. -/
theorem C2_selection_rule (forceAI : Bool) (ramGb : ℚ) :
    (runImprovementChoice forceAI ramGb = Strategy.semantic ↔
      (forceAI = true ∧ 4 ≤ ramGb)) ∧
    (runImprovementChoice forceAI ramGb = Strategy.technical ↔
      ¬(forceAI = true ∧ 4 ≤ ramGb)) := by
  unfold runImprovementChoice
  constructor <;> split <;> simp_all

/-- The stable insertion is a permutation of consing. -/
theorem perm_insertBySev (e : Entry) (l : List Entry) :
    (insertBySev e l).Perm (e :: l) := by
  induction l with
  | nil => simp [insertBySev]
  | cons x xs ih =>
      unfold insertBySev
      split
      · exact List.Perm.refl _
      · exact (List.Perm.cons x ih).trans (List.Perm.swap e x xs)


/-- The severity sort permutes its input. -/
theorem perm_sortBySev (l : List Entry) : (sortBySev l).Perm l := by
  induction l with
  | nil => exact List.Perm.refl _
  | cons x xs ih =>
      exact (perm_insertBySev x (sortBySev xs)).trans (List.Perm.cons x ih)

/-- Every record `_process_single_pdf` builds carries no repair
information: `repaired` is falsy and the repaired-path and post-repair
status keys are absent, on every control path. -/
theorem processSinglePdf_no_repair (url : String) (o : PdfOracle)
    (localPath : String) (base retries tFactor : Nat) :
    (processSinglePdf url o localPath base retries tFactor).repaired = false ∧
    (processSinglePdf url o localPath base retries tFactor).repairedPath = none ∧
    (processSinglePdf url o localPath base retries tFactor).statusAfter = none := by
  unfold processSinglePdf
  cases o.dl <;> simp

/-- Claim C1: the Pipeline Coordinator never invokes the Repair
Orchestrator. Every record it produces — including for documents whose
strict validation yields FAIL — has `repaired` falsy and no
repaired-artifact path or post-repair status, so the facade's
repaired-file collection over any pipeline result set is empty. This
contradicts the claim, which requires `repaired=true`, a repaired path
and `status_after` for strict-FAIL documents whose repair succeeds. -/
theorem C1_pipeline_never_repairs :
    (∀ (url : String) (o : PdfOracle) (localPath : String)
        (base retries tFactor : Nat),
      (processSinglePdf url o localPath base retries tFactor).repaired = false ∧
      (processSinglePdf url o localPath base retries tFactor).repairedPath = none ∧
      (processSinglePdf url o localPath base retries tFactor).statusAfter = none) ∧
    (∀ (linkFileExists : Bool) (lines : List String)
        (oracle : Nat → String → PdfOracle) (tempDir : String)
        (base retries tFactor : Nat),
      repairedFiles
        ((processPdfLinks linkFileExists lines oracle tempDir
            base retries tFactor).results) = []) := by
  refine ⟨processSinglePdf_no_repair, ?_⟩
  intro linkFileExists lines oracle tempDir base retries tFactor
  unfold processPdfLinks
  split
  · rfl
  · simp only [repairedFiles]
    have hnil : ∀ l : List Entry, (∀ e ∈ l, e.repaired = false) →
        l.filter (fun r => r.repaired) = [] := by
      intro l h
      refine List.filter_eq_nil_iff.mpr ?_
      intro a ha
      simp [h a ha]
    rw [hnil, List.map_nil]
    intro e he
    have hmem := (perm_sortBySev _).mem_iff.mp he
    simp only [rawResults, List.mem_map] at hmem
    obtain ⟨p, _, hp⟩ := hmem
    rw [← hp]
    exact (processSinglePdf_no_repair _ _ _ _ _ _).1

/-- If every attempt times out, the attempt loop exhausts its retries and
reports ERROR with the "Timeout exceeded" detail, returning the final
escalated timeout `t * tF ^ r`. -/
theorem runVerapdfGo_all_timeout (exec : Nat → Nat → RunOutcome) (lp : String)
    (tF : Nat) (h : ∀ a t, exec a t = RunOutcome.timeout) :
    ∀ r a t : Nat, runVerapdfGo exec lp tF r a t =
      ⟨"ERROR", "VeraPDF Timeout exceeded (" ++ toString (t * tF ^ r) ++ "s)",
        "?", t * tF ^ r⟩ := by
  intro r
  induction r with
  | zero =>
      intro a t
      simp [runVerapdfGo, h, runAttemptResult]
  | succ n ih =>
      intro a t
      rw [runVerapdfGo, h]
      show runVerapdfGo exec lp tF n (a + 1) (t * tF) = _
      rw [ih (a + 1) (t * tF)]
      have e : t * tF * tF ^ n = t * tF ^ (n + 1) := by ring
      rw [e]

/-- If the first `k` attempts time out (and `k ≤ r` retries remain
available), the loop reaches attempt `a + k` with the timeout escalated by
`tF ^ k`. -/
theorem runVerapdfGo_escalate (exec : Nat → Nat → RunOutcome) (lp : String)
    (tF : Nat) :
    ∀ k r a t : Nat, k ≤ r →
      (∀ j, a ≤ j → j < a + k → ∀ tt, exec j tt = RunOutcome.timeout) →
      runVerapdfGo exec lp tF r a t =
        runVerapdfGo exec lp tF (r - k) (a + k) (t * tF ^ k) := by
  intro k
  induction k with
  | zero =>
      intro r a t _ _
      simp
  | succ n ih =>
      intro r a t hk h
      have ha : exec a t = RunOutcome.timeout := h a le_rfl (by omega) t
      obtain ⟨r', rfl⟩ : ∃ r', r = r' + 1 := ⟨r - 1, by omega⟩
      have step : runVerapdfGo exec lp tF (r' + 1) a t =
          runVerapdfGo exec lp tF r' (a + 1) (t * tF) := by
        rw [runVerapdfGo, ha]
        rfl
      rw [step, ih r' (a + 1) (t * tF) (by omega)
        (fun j hj1 hj2 tt => h j (by omega) (by omega) tt)]
      have e1 : r' - n = r' + 1 - (n + 1) := by omega
      have e2 : a + 1 + n = a + (n + 1) := by omega
      have e3 : t * tF * tF ^ n = t * tF ^ (n + 1) := by ring
      rw [e1, e2, e3]

/-- Claim C4: for base timeout `T`, `N` configured retries and backoff
factor `F`, (i) if every attempt times out, `_run_verapdf` returns status
ERROR with the "Timeout exceeded" detail naming the final timeout, and
returns that final timeout `T·F^N` for reuse by the caller; (ii) after the
first `k` attempts time out, the `k`-th retry runs with timeout exactly
`T·F^k` (the remaining loop starts at attempt `k` with that timeout). -/
theorem C4_timeout_escalation (exec : Nat → Nat → RunOutcome) (lp : String)
    (T retries tF : Nat) :
    ((∀ a t, exec a t = RunOutcome.timeout) →
      runVerapdf exec lp none T retries tF =
        ⟨"ERROR", "VeraPDF Timeout exceeded (" ++ toString (T * tF ^ retries) ++ "s)",
          "?", T * tF ^ retries⟩) ∧
    (∀ k, k ≤ retries →
      (∀ j, j < k → ∀ t, exec j t = RunOutcome.timeout) →
      runVerapdf exec lp none T retries tF =
        runVerapdfGo exec lp tF (retries - k) k (T * tF ^ k)) := by
  constructor
  · intro h
    exact runVerapdfGo_all_timeout exec lp tF h retries 0 T
  · intro k hk h
    have := runVerapdfGo_escalate exec lp tF k retries 0 T hk
      (fun j _ hj2 tt => h j (by omega) tt)
    simpa using this

/-- Witness for C4 at `T = 10`, `N = 2`, `F = 4` with an always-timing-out
subprocess: the result is ERROR with detail "VeraPDF Timeout exceeded
(160s)" and final timeout 160, and after one timeout the loop stands at
attempt 1 with timeout 40. -/
theorem C4_timeout_escalation_witness :
    runVerapdf (fun _ _ => RunOutcome.timeout) "p" none 10 2 4 =
      ⟨"ERROR", "VeraPDF Timeout exceeded (" ++ toString (10 * 4 ^ 2) ++ "s)",
        "?", 10 * 4 ^ 2⟩ ∧
    runVerapdf (fun _ _ => RunOutcome.timeout) "p" none 10 2 4 =
      runVerapdfGo (fun _ _ => RunOutcome.timeout) "p" 4 (2 - 1) 1 (10 * 4 ^ 1) :=
  ⟨(C4_timeout_escalation (fun _ _ => RunOutcome.timeout) "p" 10 2 4).1
      (fun _ _ => rfl),
   (C4_timeout_escalation (fun _ _ => RunOutcome.timeout) "p" 10 2 4).2 1
      (by decide) (fun _ _ _ => rfl)⟩

/-- A truthy (non-zero) forced timeout is used as-is, not the base. -/
theorem pyOrTimeout_pos (t base : Nat) (h : 0 < t) :
    pyOrTimeout (some t) base = t := by
  have ht : ¬t = 0 := by omega
  simp [pyOrTimeout, ht]

/-- `_run_verapdf` with a truthy forced timeout starts its attempt loop at
that timeout, ignoring the configured base. -/
theorem runVerapdf_forced (exec : Nat → Nat → RunOutcome) (lp : String)
    (t base retries tF : Nat) (h : 0 < t) :
    runVerapdf exec lp (some t) base retries tF =
      runVerapdfGo exec lp tF retries 0 t := by
  unfold runVerapdf
  rw [pyOrTimeout_pos _ _ h]

/-- Claim C3: per document the strict run comes first and the
screen-reader (lenient) run depends on its result. (i) If the strict run
ends in ERROR with "Timeout" in its details, the record's primary status
is ERROR with the "Skipped SR Check" detail, and the lenient subprocess
oracle is never consulted (the record is the same for every lenient
oracle). (ii) Otherwise the record's primary status and details are those
of the lenient run started at the timeout value the strict run converged
to — not at the configured base timeout. -/
theorem C3_strict_first_lenient_skip (url : String) (o : PdfOracle) (lp : String)
    (base retries tF : Nat) (hdl : o.dl = DownloadResult.ok) :
    (((runVerapdf o.strictExec lp none base retries tF).status = "ERROR" ∧
      pyContains (runVerapdf o.strictExec lp none base retries tF).details "Timeout" = true) →
      (processSinglePdf url o lp base retries tF).status = "ERROR" ∧
      (processSinglePdf url o lp base retries tF).details =
        "VeraPDF Timeout (Skipped SR Check)" ∧
      ∀ f : Nat → Nat → RunOutcome,
        processSinglePdf url { o with srExec := f } lp base retries tF =
          processSinglePdf url o lp base retries tF) ∧
    (¬((runVerapdf o.strictExec lp none base retries tF).status = "ERROR" ∧
        pyContains (runVerapdf o.strictExec lp none base retries tF).details "Timeout" = true) →
      0 < (runVerapdf o.strictExec lp none base retries tF).timeoutUsed →
      (processSinglePdf url o lp base retries tF).status =
        (runVerapdfGo o.srExec lp tF retries 0
          (runVerapdf o.strictExec lp none base retries tF).timeoutUsed).status ∧
      (processSinglePdf url o lp base retries tF).details =
        (runVerapdfGo o.srExec lp tF retries 0
          (runVerapdf o.strictExec lp none base retries tF).timeoutUsed).details) := by
  obtain ⟨fn, dl, au, da, se, sre⟩ := o
  simp only at hdl
  subst hdl
  constructor
  · intro hc
    simp only at hc
    refine ⟨?_, ?_, ?_⟩
    · simp only [processSinglePdf]
      rw [if_pos hc]
    · simp only [processSinglePdf]
      rw [if_pos hc]
    · intro f
      simp only [processSinglePdf]
      rw [if_pos hc, if_pos hc]
  · intro hnc hpos
    simp only at hnc hpos
    constructor
    · simp only [processSinglePdf]
      rw [if_neg hnc, runVerapdf_forced sre lp _ base retries tF hpos]
    · simp only [processSinglePdf]
      rw [if_neg hnc, runVerapdf_forced sre lp _ base retries tF hpos]

/-- Witness for C3: with an always-timing-out strict subprocess the record
is ERROR regardless of the lenient oracle; with a strict run answering
"PASS" on the first attempt, the record's status is the lenient run's,
started at the strict run's final timeout. -/
theorem C3_strict_first_lenient_skip_witness :
    (processSinglePdf "u"
        ⟨"f.pdf", DownloadResult.ok, "A", "D",
          fun _ _ => RunOutcome.timeout, fun _ _ => RunOutcome.timeout⟩
        "p" 10 1 2).status = "ERROR" ∧
    (processSinglePdf "u"
        ⟨"f.pdf", DownloadResult.ok, "A", "D",
          fun _ _ => RunOutcome.output "PASS x", fun _ _ => RunOutcome.output "FAIL y"⟩
        "p" 10 1 2).status =
      (runVerapdfGo (fun _ _ => RunOutcome.output "FAIL y") "p" 2 1 0
        (runVerapdf (fun _ _ => RunOutcome.output "PASS x") "p" none 10 1 2).timeoutUsed).status :=
  ⟨((C3_strict_first_lenient_skip "u"
      ⟨"f.pdf", DownloadResult.ok, "A", "D",
        fun _ _ => RunOutcome.timeout, fun _ _ => RunOutcome.timeout⟩
      "p" 10 1 2 rfl).1 (by decide)).1,
   ((C3_strict_first_lenient_skip "u"
      ⟨"f.pdf", DownloadResult.ok, "A", "D",
        fun _ _ => RunOutcome.output "PASS x", fun _ _ => RunOutcome.output "FAIL y"⟩
      "p" 10 1 2 rfl).2 (by decide) (by decide)).1⟩

/-- Membership in a stable insertion. -/
theorem mem_insertBySev {x e : Entry} {l : List Entry} :
    x ∈ insertBySev e l ↔ x = e ∨ x ∈ l := by
  rw [(perm_insertBySev e l).mem_iff, List.mem_cons]

/-- Stable insertion preserves sortedness by severity key. -/
theorem pairwise_insertBySev (e : Entry) (l : List Entry)
    (h : l.Pairwise (fun a b => sevKey a.status ≤ sevKey b.status)) :
    (insertBySev e l).Pairwise (fun a b => sevKey a.status ≤ sevKey b.status) := by
  induction l with
  | nil => simp [insertBySev]
  | cons x xs ih =>
      rw [List.pairwise_cons] at h
      obtain ⟨hx, hxs⟩ := h
      unfold insertBySev
      split
      · rename_i hle
        rw [List.pairwise_cons]
        refine ⟨?_, List.pairwise_cons.mpr ⟨hx, hxs⟩⟩
        intro b hb
        rcases List.mem_cons.mp hb with hbx | hb
        · rw [hbx]
          exact hle
        · exact le_trans hle (hx b hb)
      · rename_i hgt
        rw [List.pairwise_cons]
        refine ⟨?_, ih hxs⟩
        intro b hb
        rcases mem_insertBySev.mp hb with hbe | hb
        · rw [hbe]
          omega
        · exact hx b hb

/-- The result of the severity sort is sorted: the severity key is
monotonically non-decreasing along the sequence. -/
theorem pairwise_sortBySev (l : List Entry) :
    (sortBySev l).Pairwise (fun a b => sevKey a.status ≤ sevKey b.status) := by
  induction l with
  | nil => simp [sortBySev]
  | cons x xs ih => exact pairwise_insertBySev x _ ih

/-- Filtering one severity class through a stable insertion: the inserted
element lands at the front of its class (it is the earliest in discovery
order among those the insertion can move past). -/
theorem filter_insertBySev (e : Entry) (l : List Entry) (k : Nat) :
    (insertBySev e l).filter (fun a => sevKey a.status == k) =
      if sevKey e.status = k
      then e :: l.filter (fun a => sevKey a.status == k)
      else l.filter (fun a => sevKey a.status == k) := by
  induction l with
  | nil =>
      by_cases hk : sevKey e.status = k <;> simp [insertBySev, hk]
  | cons x xs ih =>
      unfold insertBySev
      split
      · rename_i hle
        by_cases hk : sevKey e.status = k <;> simp [List.filter_cons, hk]
      · rename_i hgt
        by_cases hk : sevKey e.status = k
        · have hx : ¬sevKey x.status = k := by omega
          rw [if_pos hk]
          simp [List.filter_cons, hx, ih, hk]
        · rw [if_neg hk]
          by_cases hx : sevKey x.status = k <;>
            simp [List.filter_cons, hx, ih, hk]

/-- Stability of the severity sort: within each severity class, the sorted
list lists the records in their original (discovery) order. -/
theorem filter_sortBySev (l : List Entry) (k : Nat) :
    (sortBySev l).filter (fun a => sevKey a.status == k) =
      l.filter (fun a => sevKey a.status == k) := by
  induction l with
  | nil => rfl
  | cons x xs ih =>
      show (insertBySev x (sortBySev xs)).filter _ = _
      rw [filter_insertBySev]
      by_cases hk : sevKey x.status = k
      · rw [if_pos hk, ih, List.filter_cons_of_pos (by simp [hk])]
      · rw [if_neg hk, ih, List.filter_cons_of_neg (by simp [hk])]

/-- Claim C5: in the result list returned (and persisted) by
`process_pdf_links`, the severity key {PASS = 0, FAIL = 1, other = 2} of
the primary status is monotonically non-decreasing along the sequence,
and within each severity class the records appear in discovery (input)
order — the order of `rawResults`, the per-URL records before sorting. -/
theorem C5_results_sorted_stable (lines : List String)
    (oracle : Nat → String → PdfOracle) (tempDir : String)
    (base retries tFactor : Nat) :
    ((processPdfLinks true lines oracle tempDir base retries tFactor).results).Pairwise
      (fun a b => sevKey a.status ≤ sevKey b.status) ∧
    ∀ k : Nat,
      ((processPdfLinks true lines oracle tempDir base retries tFactor).results).filter
          (fun a => sevKey a.status == k) =
        (rawResults lines oracle tempDir base retries tFactor).filter
          (fun a => sevKey a.status == k) := by
  constructor
  · exact pairwise_sortBySev _
  · intro k
    exact filter_sortBySev _ k

/-- Processing a non-document link never touches the discovered-document
set or the durable sink. -/
theorem processLink_no_pdf (vd : String → Bool) (md d : Nat)
    (st : CrawlState) (u : String) (h : endsWithPdf u = false) :
    (processLink vd md d st u).allPdfs = st.allPdfs ∧
    (processLink vd md d st u).sink = st.sink := by
  unfold processLink
  simp only [h, Bool.false_eq_true, if_false]
  split
  · split <;> exact ⟨rfl, rfl⟩
  · exact ⟨rfl, rfl⟩

/-- A page none of whose links is a document link leaves the
discovered-document set unchanged. -/
theorem processLinks_no_pdf (vd : String → Bool) (md : Nat)
    (links : List String) (d : Nat) (st : CrawlState)
    (h : ∀ x ∈ links, endsWithPdf x = false) :
    (processLinks vd md links d st).allPdfs = st.allPdfs := by
  induction links generalizing st with
  | nil => rfl
  | cons x xs ih =>
      show (processLinks vd md xs d (processLink vd md d st x)).allPdfs = _
      rw [ih _ (fun y hy => h y (List.mem_cons_of_mem x hy)),
        (processLink_no_pdf vd md d st x (h x (List.mem_cons_self x xs))).1]

/-- If no fetched page yields a document link, one BFS iteration leaves
the discovered-document set unchanged. -/
theorem bfsIter_allPdfs (fetchLinks : String → Option (List String))
    (vd : String → Bool) (md : Nat) (st : CrawlState)
    (h : ∀ u links, fetchLinks u = some links → ∀ x ∈ links, endsWithPdf x = false) :
    (bfsIter fetchLinks vd md st).allPdfs = st.allPdfs := by
  unfold bfsIter
  cases hq : st.queue with
  | nil => rfl
  | cons p rest =>
      obtain ⟨url, depth⟩ := p
      simp only
      cases hf : fetchLinks url with
      | none => rfl
      | some links =>
          simp only
          exact processLinks_no_pdf vd md links depth _ (h url links hf)

/-- If no fetched page yields a document link, the whole BFS leaves the
discovered-document set unchanged. -/
theorem bfsLoop_allPdfs (fetchLinks : String → Option (List String))
    (vd : String → Bool) (md : Nat)
    (h : ∀ u links, fetchLinks u = some links → ∀ x ∈ links, endsWithPdf x = false) :
    ∀ (fuel : Nat) (st : CrawlState),
      (bfsLoop fetchLinks vd md fuel st).allPdfs = st.allPdfs := by
  intro fuel
  induction fuel with
  | zero => intro st; rfl
  | succ n ih =>
      intro st
      show (bfsLoop fetchLinks vd md n (bfsIter fetchLinks vd md st)).allPdfs = _
      rw [ih, bfsIter_allPdfs fetchLinks vd md st h]

/-- Claim C6 (counterexample): with `max_depth = 0`, a sitemap yielding
exactly two document URLs and a start page containing a third document
link, the crawl returns three URLs, not the two sitemap ones: the
claim's "exactly those two URLs" fails. -/
theorem C6_counterexample :
    "https://s.test/c.pdf" ∈
      (crawlSiteLogic "https://s.test/" ["https://s.test/a.pdf", "https://s.test/b.pdf"]
        (fun _ => some ["https://s.test/c.pdf"]) (fun _ => true) 1 0).allPdfs ∧
    ¬("https://s.test/c.pdf" = "https://s.test/a.pdf" ∨
      "https://s.test/c.pdf" = "https://s.test/b.pdf") := by
  constructor <;> decide

/-- Claim C6 (amended): crawling with `max_depth = 0` when the sitemap
probe yields exactly two distinct document URLs returns exactly those two
URLs for every value of `max_pages`, provided no fetched page yields a
further document link (document links found on scanned pages are always
recorded, regardless of depth). -/
theorem C6_sitemap_only (startUrl a b : String)
    (fetchLinks : String → Option (List String)) (validDomain : String → Bool)
    (maxPages : Nat) (hab : a ≠ b)
    (hnopdf : ∀ u links, fetchLinks u = some links →
      ∀ x ∈ links, endsWithPdf x = false) :
    ∀ u, u ∈ (crawlSiteLogic startUrl [a, b] fetchLinks validDomain maxPages 0).allPdfs ↔
      (u = a ∨ u = b) := by
  intro u
  unfold crawlSiteLogic
  rw [bfsLoop_allPdfs fetchLinks validDomain 0 hnopdf]
  simp only
  have hfold : ([a, b].foldl
      (fun acc p => if p ∈ acc then acc else acc ++ [p]) ([] : List String)) = [a, b] := by
    have hba : ¬b = a := fun h => hab (Eq.symm h)
    simp [hba]
  rw [hfold]
  simp

/-- Witness for C6 (amended) at concrete inputs: two sitemap URLs, a start
page that fails to fetch, five allowed pages. -/
theorem C6_sitemap_only_witness :
    "https://s.test/a.pdf" ∈
      (crawlSiteLogic "https://s.test/" ["https://s.test/a.pdf", "https://s.test/b.pdf"]
        (fun _ => none) (fun _ => true) 5 0).allPdfs ↔
      ("https://s.test/a.pdf" = "https://s.test/a.pdf" ∨
        "https://s.test/a.pdf" = "https://s.test/b.pdf") :=
  C6_sitemap_only "https://s.test/" "https://s.test/a.pdf" "https://s.test/b.pdf"
    (fun _ => none) (fun _ => true) 5 (by decide)
    (fun _ _ h => nomatch h) "https://s.test/a.pdf"

/-- The "record if new" operation keeps the discovered-document set free
of duplicates. -/
theorem nodup_recordIfNew (st : CrawlState) (url : String)
    (h : st.allPdfs.Nodup) : (recordIfNew st url).allPdfs.Nodup := by
  unfold recordIfNew
  split
  · exact h
  · rename_i hmem
    simp [List.nodup_append, h, hmem]

/-- Processing one link keeps the discovered-document set free of
duplicates. -/
theorem nodup_processLink (vd : String → Bool) (md d : Nat)
    (st : CrawlState) (u : String) (h : st.allPdfs.Nodup) :
    (processLink vd md d st u).allPdfs.Nodup := by
  unfold processLink
  split
  · exact nodup_recordIfNew st u h
  · split
    · split <;> exact h
    · exact h

/-- Processing a page's links keeps the discovered-document set free of
duplicates. -/
theorem nodup_processLinks (vd : String → Bool) (md : Nat)
    (links : List String) (d : Nat) (st : CrawlState)
    (h : st.allPdfs.Nodup) : (processLinks vd md links d st).allPdfs.Nodup := by
  induction links generalizing st with
  | nil => exact h
  | cons x xs ih =>
      exact ih (processLink vd md d st x) (nodup_processLink vd md d st x h)

/-- One BFS iteration keeps the discovered-document set free of
duplicates. -/
theorem nodup_bfsIter (fetchLinks : String → Option (List String))
    (vd : String → Bool) (md : Nat) (st : CrawlState)
    (h : st.allPdfs.Nodup) : (bfsIter fetchLinks vd md st).allPdfs.Nodup := by
  unfold bfsIter
  cases st.queue with
  | nil => exact h
  | cons p rest =>
      obtain ⟨url, depth⟩ := p
      simp only
      cases fetchLinks url with
      | none => exact h
      | some links =>
          exact nodup_processLinks vd md links depth _ h

/-- The BFS keeps the discovered-document set free of duplicates. -/
theorem nodup_bfsLoop (fetchLinks : String → Option (List String))
    (vd : String → Bool) (md : Nat) :
    ∀ (fuel : Nat) (st : CrawlState), st.allPdfs.Nodup →
      (bfsLoop fetchLinks vd md fuel st).allPdfs.Nodup := by
  intro fuel
  induction fuel with
  | zero => intro st h; exact h
  | succ n ih =>
      intro st h
      exact ih _ (nodup_bfsIter fetchLinks vd md st h)

/-- The membership-guarded fold used for the sitemap set update yields a
duplicate-free list from a duplicate-free accumulator. -/
theorem nodup_insertFold (l : List String) :
    ∀ acc : List String, acc.Nodup →
      (l.foldl (fun acc p => if p ∈ acc then acc else acc ++ [p]) acc).Nodup := by
  induction l with
  | nil => intro acc h; exact h
  | cons x xs ih =>
      intro acc h
      simp only [List.foldl_cons]
      split
      · exact ih acc h
      · rename_i hmem
        exact ih _ (by simp [List.nodup_append, h, hmem])

/-- Claim C7: the crawler's "record if new" operation is idempotent — on a
URL already in the discovered set it returns the state unchanged (same
set, same count, same durable sink) — and consequently the
discovered-document set returned by any crawl contains each URL at most
once. -/
theorem C7_record_if_new_idempotent :
    (∀ (st : CrawlState) (url : String), url ∈ st.allPdfs →
      recordIfNew st url = st) ∧
    (∀ (startUrl : String) (sitemapPdfs : List String)
        (fetchLinks : String → Option (List String))
        (validDomain : String → Bool) (maxPages maxDepth : Nat),
      (crawlSiteLogic startUrl sitemapPdfs fetchLinks validDomain
          maxPages maxDepth).allPdfs.Nodup) := by
  constructor
  · intro st url h
    unfold recordIfNew
    rw [if_pos h]
  · intro startUrl sitemapPdfs fetchLinks validDomain maxPages maxDepth
    unfold crawlSiteLogic
    exact nodup_bfsLoop fetchLinks validDomain maxDepth maxPages _
      (nodup_insertFold sitemapPdfs [] List.nodup_nil)

/-- Witness for C7: re-recording an already-seen URL leaves a concrete
crawler state untouched, and a concrete crawl's discovered set has no
duplicates. -/
theorem C7_record_if_new_idempotent_witness :
    recordIfNew ⟨[], [], ["https://s.test/a.pdf"], ["https://s.test/a.pdf\n"], 0⟩
        "https://s.test/a.pdf" =
      ⟨[], [], ["https://s.test/a.pdf"], ["https://s.test/a.pdf\n"], 0⟩ ∧
    (crawlSiteLogic "https://s.test/" ["https://s.test/a.pdf"]
        (fun _ => some ["https://s.test/a.pdf"]) (fun _ => true) 3 1).allPdfs.Nodup :=
  ⟨C7_record_if_new_idempotent.1
      ⟨[], [], ["https://s.test/a.pdf"], ["https://s.test/a.pdf\n"], 0⟩
      "https://s.test/a.pdf" (by decide),
   C7_record_if_new_idempotent.2 "https://s.test/" ["https://s.test/a.pdf"]
      (fun _ => some ["https://s.test/a.pdf"]) (fun _ => true) 3 1⟩

end A11y
